import Mathlib

/-!
Shallow embedding of the containerized kernel-rebuild pipeline of
`gokrazy/autoupdate` (`cmd/gokr-rebuild-kernel`: `rebuildkernel.go` host side,
`indocker.go` container side), together with theorems settling the claims
about its specification.

Strings are modelled with Lean's `String`; since the built-in `String`
ordering does not reduce well under kernel evaluation, we define an
executable byte-wise lexicographic comparison `strLe` (Go compares strings
byte-wise; for the ASCII filenames involved this agrees with the
codepoint-wise comparison below) and executable variants of the
prefix/suffix/split operations used by the Go code.
-/

namespace GokrRebuildKernel

/-- Byte-wise lexicographic order on character lists (Go string ordering,
restricted to the codepoint level). -/
def lexLe : List Char → List Char → Bool
  | [], _ => true
  | _ :: _, [] => false
  | a :: as, b :: bs =>
    if a.toNat < b.toNat then true
    else if b.toNat < a.toNat then false
    else lexLe as bs

/-- Go's `<=` on strings (byte-wise lexicographic). -/
def strLe (a b : String) : Bool := lexLe a.data b.data

/-- Go's `strings.HasSuffix`. -/
def hasSuffix (s suffix : String) : Bool := suffix.data.isSuffixOf s.data

/-- Go's `strings.HasPrefix` (also used to model flag tokens starting with a dash). -/
def strStartsWith (s p : String) : Bool := p.data.isPrefixOf s.data

/-- Drop the first `n` characters of a string (used for extracting a flag value
after `-name=`). -/
def strDropLen (s : String) (n : Nat) : String := ⟨s.data.drop n⟩

/-- Go's `strings.TrimSuffix`: remove `suffix` if present, else return `s` unchanged. -/
def trimSuffixStr (s suffix : String) : String :=
  if suffix.data.isSuffixOf s.data then ⟨s.data.take (s.data.length - suffix.data.length)⟩
  else s

/-- Go's `filepath.Base` for the paths used here (non-empty paths without a
trailing slash): the component after the last `/`. -/
def basename (s : String) : String :=
  ⟨(s.data.reverse.takeWhile (fun c => c ≠ '/')).reverse⟩

/-- The sorted order in which Go's `filepath.Glob` returns its matches
(directory entries are read in sorted order). -/
def sortStr (xs : List String) : List String :=
  xs.insertionSort (fun a b => strLe a b = true)

/-- An external command: program name and argument list
(`exec.Command(prog, args...)`). -/
structure Cmd where
  prog : String
  args : List String
deriving DecidableEq, Repr

/-! ## Container Runtime Locator (`rebuildkernel.go`, `getContainerExecutable`) -/

/-- The probe order of `getContainerExecutable`: podman first, docker second. -/
def containerChoices : List String := ["podman", "docker"]

/-- The probe loop of `getContainerExecutable`: for each candidate,
`exec.LookPath` (`none` models a lookup error, which `continue`s) followed by
`filepath.EvalSymlinks` (whose error is returned); if no candidate is found,
the runtime-not-found error is returned. -/
def lookupExecutable (lookPath : String → Option String)
    (evalSymlinks : String → Except String String) : List String → Except String String
  | [] => Except.error "none of [podman docker] found in $PATH"
  | exe :: rest =>
    match lookPath exe with
    | none => lookupExecutable lookPath evalSymlinks rest
    | some p => evalSymlinks p

/-- `getContainerExecutable` from `rebuildkernel.go`. -/
def getContainerExecutable (lookPath : String → Option String)
    (evalSymlinks : String → Except String String) : Except String String :=
  lookupExecutable lookPath evalSymlinks containerChoices

/-- Lines 134-140 of `rebuildkernel.go`: the probe runs first and its error is
returned; only then, if `-overwrite_container_executable` is non-empty, its
value replaces the probed executable. -/
def selectContainerExecutable (overwrite : String) (lookPath : String → Option String)
    (evalSymlinks : String → Except String String) : Except String String :=
  match getContainerExecutable lookPath evalSymlinks with
  | Except.error e => Except.error e
  | Except.ok exe => Except.ok (if overwrite ≠ "" then overwrite else exe)

/-- C1 counterexample support: with no container engine in the search path at
all, every lookup fails. -/
def emptySearchPath : String → Option String := fun _ => none

/-- C1 counterexample support: symlink resolution that always succeeds
(identity). -/
def idSymlinks : String → Except String String := fun s => Except.ok s

/-- C1 (counterexample): with `-overwrite_container_executable=docker` set and
neither podman nor docker in the search path, the run still fails with the
runtime-not-found error, contradicting the claim that the override bypasses
detection. -/
theorem c1_counterexample :
    selectContainerExecutable "docker" emptySearchPath idSymlinks
      = Except.error "none of [podman docker] found in $PATH" := by
  rfl

/-- C1 (amended): the detection probe always runs first and its failure aborts
the run even when the override flag is set; when the probe succeeds and the
override is non-empty, exactly the override value is used. -/
theorem c1_amended (overwrite : String) (lookPath : String → Option String)
    (evalSymlinks : String → Except String String) (h : overwrite ≠ "") :
    selectContainerExecutable overwrite lookPath evalSymlinks
      = (getContainerExecutable lookPath evalSymlinks).map (fun _ => overwrite) := by
  unfold selectContainerExecutable
  cases getContainerExecutable lookPath evalSymlinks with
  | error e => rfl
  | ok exe => simp [Except.map, if_pos h]

/-- C1 witness: the amended theorem evaluated at a concrete input where the
probe finds podman and the override is `docker`. -/
theorem c1_amended_witness :
    ("docker" : String) ≠ "" ∧
      selectContainerExecutable "docker" (fun e => some ("/usr/bin/" ++ e)) idSymlinks
        = (getContainerExecutable (fun e => some ("/usr/bin/" ++ e)) idSymlinks).map
            (fun _ => "docker") :=
  ⟨by simp, c1_amended "docker" (fun e => some ("/usr/bin/" ++ e)) idSymlinks (by simp)⟩

/-! ## Order facts about the glob sort -/

theorem lexLe_refl (l : List Char) : lexLe l l = true := by
  induction l with
  | nil => rfl
  | cons a as ih => simp [lexLe, ih]

theorem lexLe_total (a b : List Char) : lexLe a b = true ∨ lexLe b a = true := by
  induction a generalizing b with
  | nil => left; rfl
  | cons x xs ih =>
    cases b with
    | nil => right; rfl
    | cons y ys =>
      rcases Nat.lt_trichotomy x.toNat y.toNat with hlt | heq | hgt
      · left; simp [lexLe, hlt]
      · rcases ih ys with h | h
        · left; simp [lexLe, heq, h]
        · right; simp [lexLe, heq.symm, h]
      · right; simp [lexLe, hgt]

theorem lexLe_trans (a b c : List Char) (hab : lexLe a b = true)
    (hbc : lexLe b c = true) : lexLe a c = true := by
  induction a generalizing b c with
  | nil => rfl
  | cons x xs ih =>
    cases b with
    | nil => simp [lexLe] at hab
    | cons y ys =>
      cases c with
      | nil => simp [lexLe] at hbc
      | cons z zs =>
        simp only [lexLe] at hab hbc ⊢
        by_cases hxy : x.toNat < y.toNat
        · by_cases hyz : y.toNat < z.toNat
          · simp [Nat.lt_trans hxy hyz]
          · by_cases hzy : z.toNat < y.toNat
            · simp [hyz, hzy] at hbc
            · have hxz : x.toNat < z.toNat := by omega
              simp [hxz]
        · by_cases hyx : y.toNat < x.toNat
          · simp [hxy, hyx] at hab
          · by_cases hyz : y.toNat < z.toNat
            · have hxz : x.toNat < z.toNat := by omega
              simp [hxz]
            · by_cases hzy : z.toNat < y.toNat
              · simp [hyz, hzy] at hbc
              · have h1 : lexLe xs ys = true := by simpa [hxy, hyx] using hab
                have h2 : lexLe ys zs = true := by simpa [hyz, hzy] using hbc
                have hxz : ¬ x.toNat < z.toNat := by omega
                have hzx : ¬ z.toNat < x.toNat := by omega
                simp [hxz, hzx, ih ys zs h1 h2]

theorem char_toNat_inj {a b : Char} (h : a.toNat = b.toNat) : a = b :=
  Char.ext (UInt32.ext h)

theorem lexLe_antisymm (a b : List Char) (hab : lexLe a b = true)
    (hba : lexLe b a = true) : a = b := by
  induction a generalizing b with
  | nil =>
    cases b with
    | nil => rfl
    | cons y ys => simp [lexLe] at hba
  | cons x xs ih =>
    cases b with
    | nil => simp [lexLe] at hab
    | cons y ys =>
      simp only [lexLe] at hab hba
      by_cases hxy : x.toNat < y.toNat
      · have hyx : ¬ y.toNat < x.toNat := by omega
        simp [hyx, hxy] at hba
      · by_cases hyx : y.toNat < x.toNat
        · simp [hxy, hyx] at hab
        · have heq : x.toNat = y.toNat := by omega
          have h1 : lexLe xs ys = true := by simpa [hxy, hyx] using hab
          have h2 : lexLe ys xs = true := by simpa [hxy, hyx] using hba
          simp [char_toNat_inj heq, ih ys h1 h2]

/-- The ordering used by the glob sort, as a relation on strings. -/
def strLeRel (a b : String) : Prop := strLe a b = true

instance : DecidableRel strLeRel := fun a b => by
  unfold strLeRel; infer_instance

instance : IsTotal String strLeRel :=
  ⟨fun a b => lexLe_total a.data b.data⟩

instance : IsTrans String strLeRel :=
  ⟨fun a b c hab hbc => lexLe_trans a.data b.data c.data hab hbc⟩

instance : IsAntisymm String strLeRel :=
  ⟨fun a b hab hba => by
    have hdata : a.data = b.data := lexLe_antisymm a.data b.data hab hba
    exact congrArg String.mk hdata⟩

theorem sortStr_eq_insertionSort (xs : List String) :
    sortStr xs = xs.insertionSort strLeRel := rfl

theorem sortStr_sorted (xs : List String) : (sortStr xs).Sorted strLeRel := by
  rw [sortStr_eq_insertionSort]
  exact List.sorted_insertionSort strLeRel xs

theorem sortStr_perm (xs : List String) : (sortStr xs).Perm xs := by
  rw [sortStr_eq_insertionSort]
  exact List.perm_insertionSort strLeRel xs

theorem sortStr_of_sorted {xs : List String} (h : xs.Sorted strLeRel) :
    sortStr xs = xs := by
  rw [sortStr_eq_insertionSort]
  exact List.Sorted.insertionSort_eq h

/-- Sorting commutes with filtering: globbing a directory (sorted listing,
then pattern filter) applies the pattern filter to the sorted listing. -/
theorem sortStr_filter (p : String → Bool) (xs : List String) :
    (sortStr xs).filter p = sortStr (xs.filter p) := by
  apply List.eq_of_perm_of_sorted (r := strLeRel)
  · exact ((sortStr_perm xs).filter p).trans ((sortStr_perm (xs.filter p)).symm)
  · exact List.Pairwise.filter p (sortStr_sorted xs)
  · exact sortStr_sorted (xs.filter p)

/-! ## Patch series (`rebuildkernel.go` lines 128-132, `indocker.go` `applyPatches`) -/

/-- ASCII whitespace as trimmed by `strings.TrimSpace` (the manifest files at
hand are ASCII; the full Unicode space classes are not needed). -/
def isSpaceChar (c : Char) : Bool :=
  c == ' ' || c == '\t' || c == '\n' || c == '\r'

/-- Go's `strings.TrimSpace`, at the character level. -/
def trimSpaceStr (s : String) : String :=
  ⟨((s.data.dropWhile isSpaceChar).reverse.dropWhile isSpaceChar).reverse⟩

/-- Go's `strings.Split(s, "\n")`: cut at every newline, producing one piece
more than there are newlines. -/
def splitNewlines : List Char → List (List Char)
  | [] => [[]]
  | c :: cs =>
    if c = '\n' then [] :: splitNewlines cs
    else
      match splitNewlines cs with
      | [] => [[c]]
      | l :: ls => (c :: l) :: ls

/-- `rebuildkernel.go` lines 128-132: the patch series manifest is the
trimmed `series` file content split on newlines. -/
def parseSeries (content : String) : List String :=
  (splitNewlines (trimSpaceStr content).data).map String.mk

/-- The `patch -p1` invocation used for every patch (`indocker.go` line 49). -/
def patchCmd : Cmd := ⟨"patch", ["-p1"]⟩

/-- One patch application: the patch file fed on stdin to `patch -p1` run in
the unpacked source directory. -/
structure PatchApplication where
  patchFile : String
  cmd : Cmd
  workDir : String
deriving DecidableEq, Repr

/-- The container's working directory `/usr/src` as populated by the
Dockerfile and the driver before `applyPatches` runs: the config addendum,
the downloaded archive, the unpacked source directory, and the series
patches (assumed plain filenames, as the Dockerfile copies each series entry
to `/usr/src/<path>`). -/
def containerBuildContext (series : List String) (archiveBase srcdir : String) :
    List String :=
  "config.addendum.txt" :: archiveBase :: srcdir :: series

/-- `applyPatches` from `indocker.go`: `filepath.Glob("*.patch")` (the sorted
directory listing filtered to names ending in `.patch`), each applied via
`patch -p1` in `srcdir`, in glob order. -/
def applyPatches (srcdir : String) (dirFiles : List String) : List PatchApplication :=
  ((sortStr dirFiles).filter (fun f => hasSuffix f ".patch")).map
    (fun p => ⟨p, patchCmd, srcdir⟩)

/-- C2 (counterexample): for the series manifest listing `b.patch` before
`a.patch`, the ApplyPatches stage applies `a.patch` first — glob order, not
manifest order — contradicting the claim. -/
theorem c2_counterexample :
    parseSeries "b.patch\na.patch\n" = ["b.patch", "a.patch"] ∧
    applyPatches "linux-6.6"
        (containerBuildContext ["b.patch", "a.patch"] "linux-6.6.tar.xz" "linux-6.6")
      = [⟨"a.patch", patchCmd, "linux-6.6"⟩, ⟨"b.patch", patchCmd, "linux-6.6"⟩] ∧
    applyPatches "linux-6.6"
        (containerBuildContext ["b.patch", "a.patch"] "linux-6.6.tar.xz" "linux-6.6")
      ≠ [⟨"b.patch", patchCmd, "linux-6.6"⟩, ⟨"a.patch", patchCmd, "linux-6.6"⟩] := by
  refine ⟨by decide, by decide, by decide⟩

/-- C2 (amended): the ApplyPatches stage applies exactly the manifest's
patches, each as a one-directory-stripped (`patch -p1`) application in the
unpacked source tree, but in lexicographically sorted glob order rather than
manifest order; the manifest's listed order is respected exactly when the
manifest is already sorted. -/
theorem c2_amended (series : List String) (archiveBase srcdir : String)
    (hpatch : ∀ p ∈ series, hasSuffix p ".patch" = true)
    (ha : hasSuffix archiveBase ".patch" = false)
    (hs : hasSuffix srcdir ".patch" = false) :
    applyPatches srcdir (containerBuildContext series archiveBase srcdir)
      = (sortStr series).map (fun p => ⟨p, patchCmd, srcdir⟩) ∧
    (series.Sorted strLeRel →
      applyPatches srcdir (containerBuildContext series archiveBase srcdir)
        = series.map (fun p => ⟨p, patchCmd, srcdir⟩)) := by
  have hmain : applyPatches srcdir (containerBuildContext series archiveBase srcdir)
      = (sortStr series).map (fun p => ⟨p, patchCmd, srcdir⟩) := by
    unfold applyPatches
    rw [sortStr_filter]
    have h0 : hasSuffix "config.addendum.txt" ".patch" = false := by decide
    have hflt : (containerBuildContext series archiveBase srcdir).filter
        (fun f => hasSuffix f ".patch") = series := by
      simp only [containerBuildContext, List.filter, h0, ha, hs]
      exact List.filter_eq_self.mpr hpatch
    rw [hflt]
  refine ⟨hmain, fun hsorted => ?_⟩
  rw [hmain, sortStr_of_sorted hsorted]

/-- C2 witness: the amended theorem evaluated at a sorted two-patch series. -/
theorem c2_amended_witness :
    (∀ p ∈ ["a.patch", "b.patch"], hasSuffix p ".patch" = true) ∧
    hasSuffix "linux-6.6.tar.xz" ".patch" = false ∧
    hasSuffix "linux-6.6" ".patch" = false ∧
    (applyPatches "linux-6.6"
        (containerBuildContext ["a.patch", "b.patch"] "linux-6.6.tar.xz" "linux-6.6")
      = (sortStr ["a.patch", "b.patch"]).map (fun p => ⟨p, patchCmd, "linux-6.6"⟩) ∧
    (["a.patch", "b.patch"].Sorted strLeRel →
      applyPatches "linux-6.6"
          (containerBuildContext ["a.patch", "b.patch"] "linux-6.6.tar.xz" "linux-6.6")
        = ["a.patch", "b.patch"].map (fun p => ⟨p, patchCmd, "linux-6.6"⟩))) :=
  ⟨by decide, by decide, by decide,
    c2_amended ["a.patch", "b.patch"] "linux-6.6.tar.xz" "linux-6.6"
      (by decide) (by decide) (by decide)⟩

/-! ## Flag parsing (`flag` package, as used by `indockerMain`) and the host's
container invocation (`rebuildkernel.go` lines 220-237) -/

/-- The flag state of `indockerMain` after `flag.Parse()`: the `-cross` and
`-flavor` string flags plus the remaining positional arguments. -/
structure DriverFlags where
  cross : String
  flavor : String
  positional : List String
deriving DecidableEq, Repr

/-- Go's `flag.Parse` for the two string flags registered by `indockerMain`
(defaults passed as the accumulator): `--` terminates parsing, the first
token not starting with `-` (or a bare `-`) ends flag parsing and starts the
positional arguments, `-name=value` / `--name=value` set a flag, `-name`
consumes the next token as the value, and an unknown flag is an error. -/
def parseFlagTokens (cross flavor : String) : List String → Except String DriverFlags
  | [] => Except.ok ⟨cross, flavor, []⟩
  | a :: rest =>
    if a = "--" then Except.ok ⟨cross, flavor, rest⟩
    else if strStartsWith a "-" = false then Except.ok ⟨cross, flavor, a :: rest⟩
    else if a = "-" then Except.ok ⟨cross, flavor, a :: rest⟩
    else if strStartsWith a "-cross=" then parseFlagTokens (strDropLen a 7) flavor rest
    else if strStartsWith a "--cross=" then parseFlagTokens (strDropLen a 8) flavor rest
    else if strStartsWith a "-flavor=" then parseFlagTokens cross (strDropLen a 8) rest
    else if strStartsWith a "--flavor=" then parseFlagTokens cross (strDropLen a 9) rest
    else if a = "-cross" ∨ a = "--cross" then
      match rest with
      | [] => Except.error "flag needs an argument: -cross"
      | v :: rest2 => parseFlagTokens v flavor rest2
    else if a = "-flavor" ∨ a = "--flavor" then
      match rest with
      | [] => Except.error "flag needs an argument: -flavor"
      | v :: rest2 => parseFlagTokens cross v rest2
    else Except.error ("flag provided but not defined: " ++ a)

/-- `indockerMain`'s flag parsing: `-cross` defaults to `""`, `-flavor`
defaults to `"vanilla"`. -/
def indockerFlags (argv : List String) : Except String DriverFlags :=
  parseFlagTokens "" "vanilla" argv

/-- The argument vector the Host Orchestrator hands to the In-Container Build
Driver (`rebuildkernel.go` lines 232-235): the `-cross` flag and the trimmed
upstream URL, nothing else. -/
def driverArgv (cross upstreamURL : String) : List String :=
  ["-cross=" ++ cross, upstreamURL]

/-- The container-run arguments before the image name (`rebuildkernel.go`
lines 220-231). -/
def dockerRunBase (abs : String) (keepBuildContainer : Bool) (execName : String) :
    List String :=
  (["run", "--platform=linux/amd64", "--volume", abs ++ ":/tmp/buildresult:Z"]
      ++ (if keepBuildContainer then [] else ["--rm"]))
    ++ (if execName = "podman" then ["--userns=keep-id"] else [])

/-- The full argument list of the `docker run`/`podman run` invocation
(`rebuildkernel.go` lines 220-237). -/
def dockerRunArgs (abs cross upstreamURL : String) (keepBuildContainer : Bool)
    (execName : String) : List String :=
  dockerRunBase abs keepBuildContainer execName
    ++ ["gokr-rebuild-kernel", "-cross=" ++ cross, upstreamURL]

theorem strStartsWith_append_self (pre s : String) :
    strStartsWith (pre ++ s) pre = true := by
  simp only [strStartsWith, String.data_append]
  exact List.isPrefixOf_iff_prefix.mpr (List.prefix_append pre.data s.data)

theorem strDropLen_append (pre s : String) :
    strDropLen (pre ++ s) pre.data.length = s := by
  simp only [strDropLen, String.data_append, List.drop_left]

theorem crossToken_ne_ddash (cross : String) : ("-cross=" ++ cross) ≠ "--" := by
  intro h
  have := congrArg String.data h
  simp [String.data_append] at this

theorem crossToken_startsWith_dash (cross : String) :
    strStartsWith ("-cross=" ++ cross) "-" = true := by
  have h : ("-cross=" : String) = "-" ++ "cross=" := rfl
  rw [h, String.append_assoc]
  exact strStartsWith_append_self "-" _


theorem parseFlagTokens_driverArgv (c0 f0 cross url : String)
    (hurl : strStartsWith url "-" = false) :
    parseFlagTokens c0 f0 ["-cross=" ++ cross, url] = Except.ok ⟨cross, f0, [url]⟩ := by
  have hne2 : ("-cross=" ++ cross) ≠ "--" := crossToken_ne_ddash cross
  have hsw : strStartsWith ("-cross=" ++ cross) "-" = true := crossToken_startsWith_dash cross
  have hne1 : ("-cross=" ++ cross) ≠ "-" := by
    intro h
    have := congrArg String.data h
    simp [String.data_append] at this
  have hswc : strStartsWith ("-cross=" ++ cross) "-cross=" = true :=
    strStartsWith_append_self "-cross=" cross
  have hdrop : strDropLen ("-cross=" ++ cross) 7 = cross := by
    have h7 : ("-cross=" : String).data.length = 7 := rfl
    rw [← h7]
    exact strDropLen_append "-cross=" cross
  have hu2 : url ≠ "--" := by
    intro h
    subst h
    simp [strStartsWith, List.isPrefixOf] at hurl
  simp [parseFlagTokens, hne2, hsw, hne1, hswc, hdrop, hu2, hurl]

/-- C3 (confirmed): the host's container invocation passes exactly the
`-cross` flag and the upstream URL after the image name — no `-flavor` flag —
and the driver's flag parsing of that argument vector yields the default
flavor `vanilla`, so the raspberrypi flavor is unreachable through the Host
Orchestrator. -/
theorem c3_container_invocation_default_flavor (abs cross url : String)
    (keep : Bool) (execName : String) (hurl : strStartsWith url "-" = false) :
    dockerRunArgs abs cross url keep execName
      = dockerRunBase abs keep execName ++ ["gokr-rebuild-kernel"] ++ driverArgv cross url ∧
    indockerFlags (driverArgv cross url) = Except.ok ⟨cross, "vanilla", [url]⟩ := by
  constructor
  · simp [dockerRunArgs, driverArgv]
  · exact parseFlagTokens_driverArgv "" "vanilla" cross url hurl

/-- C3 witness: the theorem evaluated at a concrete arm64 invocation. -/
theorem c3_container_invocation_default_flavor_witness :
    strStartsWith "https://cdn.kernel.org/pub/linux/kernel/v6.x/linux-6.6.tar.xz" "-" = false ∧
    (dockerRunArgs "/home/user/kernel/_build" "arm64"
        "https://cdn.kernel.org/pub/linux/kernel/v6.x/linux-6.6.tar.xz" false "podman"
      = dockerRunBase "/home/user/kernel/_build" false "podman"
          ++ ["gokr-rebuild-kernel"]
          ++ driverArgv "arm64" "https://cdn.kernel.org/pub/linux/kernel/v6.x/linux-6.6.tar.xz" ∧
    indockerFlags
        (driverArgv "arm64" "https://cdn.kernel.org/pub/linux/kernel/v6.x/linux-6.6.tar.xz")
      = Except.ok ⟨"arm64", "vanilla",
          ["https://cdn.kernel.org/pub/linux/kernel/v6.x/linux-6.6.tar.xz"]⟩) :=
  ⟨by decide,
    c3_container_invocation_default_flavor "/home/user/kernel/_build" "arm64"
      "https://cdn.kernel.org/pub/linux/kernel/v6.x/linux-6.6.tar.xz" false "podman"
      (by decide)⟩

/-! ## Compile stage (`indocker.go`, `compile`) -/

/-- One step of the `compile` function: an external command (optionally with a
full replacement environment, `cmd.Env`) or an append of raw bytes to a file. -/
inductive BuildStep
  | run : Cmd → BuildStep
  | runWithEnv : Cmd → List String → BuildStep
  | appendToFile : String → String → BuildStep
deriving DecidableEq, Repr

/-- The three reproducibility variables appended to `os.Environ()` in
`compile` (`indocker.go` lines 109-113), byte for byte. -/
def pinnedBuildEnv : List String :=
  ["KBUILD_BUILD_USER=gokrazy",
   "KBUILD_BUILD_HOST=docker",
   "KBUILD_BUILD_TIMESTAMP=Wed Mar  1 20:57:29 UTC 2017"]

/-- The base configuration command (`indocker.go` lines 64-69): `make
defconfig`, replaced by `make ARCH=arm64 bcm2711_defconfig` for the
raspberrypi flavor. -/
def defconfigCmd (flavor : String) : Cmd :=
  if flavor = "raspberrypi" then ⟨"make", ["ARCH=arm64", "bcm2711_defconfig"]⟩
  else ⟨"make", ["defconfig"]⟩

/-- The kernel build command (`indocker.go` lines 114-117): targets by
architecture, `-j` equal to `runtime.NumCPU()`. -/
def kernelMakeCmd (cross : String) (numCPU : Nat) : Cmd :=
  if cross = "arm64" then ⟨"make", ["Image.gz", "dtbs", "modules", "-j" ++ toString numCPU]⟩
  else ⟨"make", ["bzImage", "modules", "-j" ++ toString numCPU]⟩

/-- The module installation command (`indocker.go` line 125). -/
def modulesInstallCmd (numCPU : Nat) : Cmd :=
  ⟨"make", ["INSTALL_MOD_PATH=/tmp/buildresult", "modules_install", "-j" ++ toString numCPU]⟩

/-- The `compile` function of `indocker.go` as its ordered step sequence:
defconfig, `make mod2noconfig`, append the addendum bytes to `.config`,
`make olddefconfig`, then the two builds under the pinned environment
(`os.Environ()` plus the three reproducibility variables). -/
def compileSteps (cross flavor : String) (numCPU : Nat) (baseEnv : List String)
    (addendum : String) : List BuildStep :=
  [BuildStep.run (defconfigCmd flavor),
   BuildStep.run ⟨"make", ["mod2noconfig"]⟩,
   BuildStep.appendToFile ".config" addendum,
   BuildStep.run ⟨"make", ["olddefconfig"]⟩,
   BuildStep.runWithEnv (kernelMakeCmd cross numCPU) (baseEnv ++ pinnedBuildEnv),
   BuildStep.runWithEnv (modulesInstallCmd numCPU) (baseEnv ++ pinnedBuildEnv)]

/-- Modelled from the spec (section 4.4, Configure): the configuration stage
as the spec words it — a base defconfig generation (Broadcom-specific for the
raspberrypi flavor), a module-minimization pass, the verbatim addendum
append, and a configuration-normalization pass. Used as the refinement
target for the Configure claim. -/
def specConfigureSteps (flavor : String) (addendum : String) : List BuildStep :=
  [BuildStep.run (if flavor = "raspberrypi"
      then ⟨"make", ["ARCH=arm64", "bcm2711_defconfig"]⟩
      else ⟨"make", ["defconfig"]⟩),
   BuildStep.run ⟨"make", ["mod2noconfig"]⟩,
   BuildStep.appendToFile ".config" addendum,
   BuildStep.run ⟨"make", ["olddefconfig"]⟩]

/-- Recognizer for configuration-file mutation steps. -/
def isConfigAppend : BuildStep → Bool
  | BuildStep.appendToFile f _ => f = ".config"
  | _ => false

/-- C4 (confirmed): for every `(cross, flavor)` input the Configure stage is
exactly the spec's sequence — defconfig (`make ARCH=arm64 bcm2711_defconfig`
iff the flavor is raspberrypi), `make mod2noconfig`, the verbatim append of
the addendum bytes to `.config`, `make olddefconfig` — and no other step of
`compile` mutates the configuration file. -/
theorem c4_configure_sequence (cross flavor : String) (numCPU : Nat)
    (baseEnv : List String) (addendum : String) :
    (compileSteps cross flavor numCPU baseEnv addendum).take 4
      = specConfigureSteps flavor addendum ∧
    ((compileSteps cross flavor numCPU baseEnv addendum).drop 4).all
      (fun s => !isConfigAppend s) = true := by
  constructor
  · by_cases h : flavor = "raspberrypi" <;>
      simp [compileSteps, specConfigureSteps, defconfigCmd, h]
  · simp [compileSteps, isConfigAppend]

/-- C9 (confirmed): both make invocations of the Compile stage run with `-j`
equal to the processor count and under an environment that is the ambient
environment extended with exactly the three pinned reproducibility values;
the build targets are `bzImage modules` unless cross-compiling for arm64,
in which case they are `Image.gz dtbs modules`. -/
theorem c9_compile_invocation (cross flavor : String) (numCPU : Nat)
    (baseEnv : List String) (addendum : String) :
    (compileSteps cross flavor numCPU baseEnv addendum).drop 4
      = [BuildStep.runWithEnv
           ⟨"make", (if cross = "arm64" then ["Image.gz", "dtbs", "modules"]
              else ["bzImage", "modules"]) ++ ["-j" ++ toString numCPU]⟩
           (baseEnv ++
             ["KBUILD_BUILD_USER=gokrazy",
              "KBUILD_BUILD_HOST=docker",
              "KBUILD_BUILD_TIMESTAMP=Wed Mar  1 20:57:29 UTC 2017"]),
         BuildStep.runWithEnv
           ⟨"make", ["INSTALL_MOD_PATH=/tmp/buildresult", "modules_install",
              "-j" ++ toString numCPU]⟩
           (baseEnv ++
             ["KBUILD_BUILD_USER=gokrazy",
              "KBUILD_BUILD_HOST=docker",
              "KBUILD_BUILD_TIMESTAMP=Wed Mar  1 20:57:29 UTC 2017"])] := by
  by_cases h : cross = "arm64" <;>
    simp [compileSteps, kernelMakeCmd, modulesInstallCmd, pinnedBuildEnv, h]


/-! ## Host-side kernel image copy (`rebuildkernel.go`, `copyFile`) -/

/-- A regular file: its byte content and its permission bits. -/
structure FileState where
  content : String
  mode : Nat
deriving DecidableEq, Repr

/-- `copyFile(dest, src)` from `rebuildkernel.go` lines 48-73: `os.Create`
truncates (or creates) the destination, `io.Copy` writes the source bytes,
and `out.Chmod(st.Mode())` — with `st` the stat of the opened *source* —
sets the destination's permission bits to the source's.  The pre-existing
destination file (if any) contributes neither content nor mode to the
result. -/
def copyFile (src : FileState) (_destBefore : Option FileState) : FileState :=
  { content := src.content, mode := src.mode }

/-- `rebuildkernel.go` line 246: `copyFile(kernelPath, "vmlinuz")` — the
produced image (`vmlinuz` in the staging directory) is the copy source, the
pre-existing sibling `../vmlinuz` is the destination. -/
def reconcileKernelImage (producedVmlinuz siblingVmlinuz : FileState) : FileState :=
  copyFile producedVmlinuz (some siblingVmlinuz)

/-- C5 (counterexample): with a produced image of mode `0o600` copied over a
sibling of mode `0o755`, the destination ends with mode `0o600`, not the
`0o755` the claim requires to be preserved. -/
theorem c5_counterexample :
    (reconcileKernelImage ⟨"newkernel", 0o600⟩ ⟨"oldkernel", 0o755⟩).mode = 0o600 ∧
    (reconcileKernelImage ⟨"newkernel", 0o600⟩ ⟨"oldkernel", 0o755⟩).mode ≠ 0o755 := by
  refine ⟨rfl, by decide⟩

/-- C5 (amended): after the copy the destination carries the *source* file's
(the produced kernel image's) permission bits and content; the pre-existing
sibling's permission bits are not preserved. -/
theorem c5_amended (producedVmlinuz siblingVmlinuz : FileState) :
    (reconcileKernelImage producedVmlinuz siblingVmlinuz).mode = producedVmlinuz.mode ∧
    (reconcileKernelImage producedVmlinuz siblingVmlinuz).content
      = producedVmlinuz.content := by
  exact ⟨rfl, rfl⟩

/-! ## Stale symlink pruning (`rebuildkernel.go` lines 250-262) and module
tree installation (lines 264-278) -/

/-- A filesystem entry of the staged output tree, by path components relative
to the staging directory (e.g. `["lib", "modules", "6.6.0", "build"]`), with
a flag telling whether it is a symlink. -/
structure TreeEntry where
  path : List String
  isLink : Bool
deriving DecidableEq, Repr

/-- `filepath.Glob(filepath.Join("lib/modules", "*", subdir))`: the `*`
wildcard matches exactly one path component (it never crosses a separator),
so a path matches iff it is `lib/modules/<any>/<subdir>`. -/
def matchesPruneGlob (subdir : String) (p : List String) : Bool :=
  match p with
  | [a, b, _, d] => a = "lib" && b = "modules" && d = subdir
  | _ => false

/-- The pruning loop of `rebuildkernel.go` lines 250-262: every glob match of
`lib/modules/*/build`, then of `lib/modules/*/source`, is removed from the
staged tree. -/
def pruneStaleLinks (tree : List TreeEntry) : List TreeEntry :=
  (tree.filter (fun e => !matchesPruneGlob "build" e.path)).filter
    (fun e => !matchesPruneGlob "source" e.path)

/-- Lines 264-278: `rm -rf <libPath>/modules` followed by
`cp -r lib/modules <libPath>` — the host's installed modules tree becomes
exactly the staged (pruned) subtree under `lib/modules`. -/
def installedModulesTree (stagedTree : List TreeEntry) : List TreeEntry :=
  (pruneStaleLinks stagedTree).filter
    (fun e => ["lib", "modules"].isPrefixOf e.path)

/-- C6 (counterexample): a `build` symlink nested below the top level of a
version directory (here `lib/modules/6.6.0/kernel/build`) survives
reconciliation, contradicting the claim that no `build` symlink remains at
any depth. -/
theorem c6_counterexample :
    (installedModulesTree [⟨["lib", "modules", "6.6.0", "kernel", "build"], true⟩]).any
      (fun e => e.isLink && e.path.getLastD "" = "build") = true := by
  decide

/-- C6 (amended): reconciliation removes exactly the `build` and `source`
entries sitting directly inside a version directory
(`lib/modules/<version>/build`, `lib/modules/<version>/source`); hence for
every staged tree whose `build`/`source`-named symlinks all sit at that level
(as `make modules_install` produces them), no such symlink remains anywhere
under the host's installed modules tree. -/
theorem c6_amended (stagedTree : List TreeEntry)
    (h : ∀ e ∈ stagedTree, e.isLink = true →
      (e.path.getLastD "" = "build" ∨ e.path.getLastD "" = "source") →
      matchesPruneGlob "build" e.path = true ∨ matchesPruneGlob "source" e.path = true) :
    ∀ e ∈ installedModulesTree stagedTree, e.isLink = true →
      e.path.getLastD "" ≠ "build" ∧ e.path.getLastD "" ≠ "source" := by
  intro e hmem hlink
  have h1 : e ∈ pruneStaleLinks stagedTree := (List.mem_filter.mp hmem).1
  have h2 : e ∈ stagedTree.filter (fun x => !matchesPruneGlob "build" x.path) :=
    (List.mem_filter.mp h1).1
  have hstaged : e ∈ stagedTree := (List.mem_filter.mp h2).1
  have hnotb : matchesPruneGlob "build" e.path = false := by
    have := (List.mem_filter.mp h2).2
    simpa using this
  have hnots : matchesPruneGlob "source" e.path = false := by
    have := (List.mem_filter.mp h1).2
    simpa using this
  constructor
  · intro hlast
    rcases h e hstaged hlink (Or.inl hlast) with hb | hs
    · rw [hnotb] at hb
      exact Bool.false_ne_true hb
    · rw [hnots] at hs
      exact Bool.false_ne_true hs
  · intro hlast
    rcases h e hstaged hlink (Or.inr hlast) with hb | hs
    · rw [hnotb] at hb
      exact Bool.false_ne_true hb
    · rw [hnots] at hs
      exact Bool.false_ne_true hs

/-- C6 witness: the amended theorem evaluated at a staged tree whose only
`build`/`source` symlinks are the version-level ones. -/
theorem c6_amended_witness :
    (∀ e ∈ [TreeEntry.mk ["lib", "modules", "6.6.0"] false,
            TreeEntry.mk ["lib", "modules", "6.6.0", "build"] true,
            TreeEntry.mk ["lib", "modules", "6.6.0", "source"] true,
            TreeEntry.mk ["lib", "modules", "6.6.0", "kernel", "drivers"] false],
        e.isLink = true →
        (e.path.getLastD "" = "build" ∨ e.path.getLastD "" = "source") →
        matchesPruneGlob "build" e.path = true ∨
          matchesPruneGlob "source" e.path = true) ∧
    (∀ e ∈ installedModulesTree
          [TreeEntry.mk ["lib", "modules", "6.6.0"] false,
           TreeEntry.mk ["lib", "modules", "6.6.0", "build"] true,
           TreeEntry.mk ["lib", "modules", "6.6.0", "source"] true,
           TreeEntry.mk ["lib", "modules", "6.6.0", "kernel", "drivers"] false],
        e.isLink = true →
        e.path.getLastD "" ≠ "build" ∧ e.path.getLastD "" ≠ "source") :=
  ⟨by decide,
    c6_amended
      [TreeEntry.mk ["lib", "modules", "6.6.0"] false,
       TreeEntry.mk ["lib", "modules", "6.6.0", "build"] true,
       TreeEntry.mk ["lib", "modules", "6.6.0", "source"] true,
       TreeEntry.mk ["lib", "modules", "6.6.0", "kernel", "drivers"] false]
      (by decide)⟩


/-! ## In-Container Build Driver control flow (`indocker.go`, `indockerMain`)
and artifact extraction (lines 188-241) -/

/-- The hand-maintained vanilla-flavor legacy-filename remapping table
(`indocker.go` lines 196-205), as (destination name, source name) pairs in
source order.  Go iterates map literals in unspecified order, so only the
set of entries — never their order — is meaningful. -/
def vanillaDtbMap : List (String × String) :=
  [("bcm2710-rpi-3-b.dtb", "bcm2837-rpi-3-b.dtb"),
   ("bcm2710-rpi-3-b-plus.dtb", "bcm2837-rpi-3-b-plus.dtb"),
   ("bcm2710-rpi-cm3.dtb", "bcm2837-rpi-cm3-io3.dtb"),
   ("bcm2711-rpi-4-b.dtb", "bcm2711-rpi-4-b.dtb"),
   ("bcm2711-rpi-cm4-io.dtb", "bcm2711-rpi-cm4-io.dtb"),
   ("bcm2710-rpi-zero-2-w.dtb", "bcm2837-rpi-zero-2-w.dtb"),
   ("bcm2710-rpi-zero-2.dtb", "bcm2837-rpi-zero-2-w.dtb"),
   ("bcm2711-rpi-400.dtb", "bcm2711-rpi-400.dtb")]

/-- The ExtractArtifacts stage (`indocker.go` lines 188-241) as the list of
(destination, source) file copies it performs, given the glob results for
`arch/arm64/boot/dts/broadcom/*.dtb` and
`arch/arm64/boot/dts/overlays/*.dtbo`.  A flavor that is neither `vanilla`
nor `raspberrypi` falls through the `switch` and extracts no device-tree
artifacts at all. -/
def extractOps (cross flavor : String) (broadcomDtbs overlayDtbos : List String) :
    List (String × String) :=
  if cross = "arm64" then
    ("/tmp/buildresult/vmlinuz", "arch/arm64/boot/Image") ::
      (if flavor = "vanilla" then
        vanillaDtbMap.map
          (fun pr => ("/tmp/buildresult/" ++ pr.1, "arch/arm64/boot/dts/broadcom/" ++ pr.2))
      else if flavor = "raspberrypi" then
        broadcomDtbs.map (fun fn => ("/tmp/buildresult/" ++ basename fn, fn))
          ++ (overlayDtbos ++ ["arch/arm64/boot/dts/overlays/overlay_map.dtb"]).map
              (fun fn => ("/tmp/buildresult/overlays/" ++ basename fn, fn))
      else [])
  else [("/tmp/buildresult/vmlinuz", "arch/x86/boot/bzImage")]

/-- The source-directory naming rule (`indocker.go` lines 163-166): the
vanilla kernel.org convention strips `.tar.xz`, the raspberrypi archives are
named `linux-<base>` with `.tar.gz` stripped. -/
def srcdirFor (flavor archiveBase : String) : String :=
  if flavor = "raspberrypi" then trimSuffixStr ("linux-" ++ archiveBase) ".tar.gz"
  else trimSuffixStr archiveBase ".tar.xz"

/-- The decisions of one In-Container Build Driver run: what it downloads,
how it unpacks, which patches it applies, the compile step sequence, and the
artifact copies. -/
structure DriverPlan where
  downloadURL : String
  untarCmd : Cmd
  srcdir : String
  patchSeq : List PatchApplication
  compile : List BuildStep
  extract : List (String × String)
deriving DecidableEq, Repr

/-- `indockerMain` (`indocker.go` lines 136-242): parse flags, take the first
positional argument as the upstream URL (`log.Fatalf` — modelled as an error
— when it is missing), then proceed unconditionally through download,
unpack, patch, compile and extract.  External command failures abort the run
at runtime but involve no driver decision, so the driver's own control flow
is captured by the returned plan; note that no branch rejects an unknown
`-flavor` value. -/
def indockerMain (argv ctxFiles : List String) (numCPU : Nat)
    (baseEnv : List String) (addendum : String)
    (broadcomDtbs overlayDtbos : List String) : Except String DriverPlan :=
  match indockerFlags argv with
  | Except.error e => Except.error e
  | Except.ok fl =>
    let latest := fl.positional.headD ""
    if latest = "" then Except.error "syntax: gokr-rebuild-kernel <upstream-URL>"
    else
      let srcdir := srcdirFor fl.flavor (basename latest)
      Except.ok
        { downloadURL := latest,
          untarCmd := ⟨"tar", ["xf", basename latest]⟩,
          srcdir := srcdir,
          patchSeq := applyPatches srcdir ctxFiles,
          compile := compileSteps fl.cross fl.flavor numCPU baseEnv addendum,
          extract := extractOps fl.cross fl.flavor broadcomDtbs overlayDtbos }


/-- The raspberrypi-flavor arm64 extraction, written out (definitional
unfolding of `extractOps` at that build target key). -/
theorem extractOps_rpi_eq (dtbs dtbos : List String) :
    extractOps "arm64" "raspberrypi" dtbs dtbos
      = ("/tmp/buildresult/vmlinuz", "arch/arm64/boot/Image") ::
          (dtbs.map (fun fn => ("/tmp/buildresult/" ++ basename fn, fn))
            ++ (dtbos ++ ["arch/arm64/boot/dts/overlays/overlay_map.dtb"]).map
                (fun fn => ("/tmp/buildresult/overlays/" ++ basename fn, fn))) := rfl

/-- C8 (confirmed): under `-cross=arm64 -flavor=raspberrypi` the
ExtractArtifacts stage copies every globbed `.dtbo` file, plus
`overlay_map.dtb`, into the `overlays/` subdirectory of the output mount,
and none of the vanilla flavor's renaming table entries is applied. -/
theorem c8_rpi_extraction (dtbs dtbos : List String) :
    (∀ f ∈ dtbos,
      ("/tmp/buildresult/overlays/" ++ basename f, f)
        ∈ extractOps "arm64" "raspberrypi" dtbs dtbos) ∧
    ("/tmp/buildresult/overlays/overlay_map.dtb",
        "arch/arm64/boot/dts/overlays/overlay_map.dtb")
      ∈ extractOps "arm64" "raspberrypi" dtbs dtbos ∧
    (∀ pr ∈ vanillaDtbMap, pr.1 ≠ pr.2 →
      ("/tmp/buildresult/" ++ pr.1, "arch/arm64/boot/dts/broadcom/" ++ pr.2)
        ∉ extractOps "arm64" "raspberrypi" dtbs dtbos) := by
  refine ⟨?_, ?_, ?_⟩
  · intro f hf
    rw [extractOps_rpi_eq]
    exact List.mem_cons_of_mem _
      (List.mem_append_right _
        (List.mem_map.mpr ⟨f, List.mem_append_left _ hf, rfl⟩))
  · rw [extractOps_rpi_eq]
    refine List.mem_cons_of_mem _
      (List.mem_append_right _ (List.mem_map.mpr ⟨"arch/arm64/boot/dts/overlays/overlay_map.dtb", ?_, ?_⟩))
    · exact List.mem_append_right _ (List.mem_singleton.mpr rfl)
    · decide
  · intro pr hpr hne hmem
    rw [extractOps_rpi_eq] at hmem
    fin_cases hpr <;>
      simp only [List.mem_cons, List.mem_append, List.mem_map, Prod.mk.injEq] at hmem <;>
      [skip; skip; skip; exact hne rfl; exact hne rfl; skip; skip; exact hne rfl] <;>
      (rcases hmem with ⟨hd, hs⟩ | ⟨fn, hfn, hd, hs⟩ | ⟨fn, hfn, hd, hs⟩) <;>
      first
        | (exact absurd hd (by decide))
        | (subst hs; exact absurd hd (by decide))


theorem parseFlagTokens_crossFlavor (c0 f0 cross flavor url : String)
    (hurl : strStartsWith url "-" = false) :
    parseFlagTokens c0 f0 ["-cross=" ++ cross, "-flavor=" ++ flavor, url]
      = Except.ok ⟨cross, flavor, [url]⟩ := by
  have c_ne2 : ("-cross=" ++ cross) ≠ "--" := crossToken_ne_ddash cross
  have c_sw : strStartsWith ("-cross=" ++ cross) "-" = true := crossToken_startsWith_dash cross
  have c_ne1 : ("-cross=" ++ cross) ≠ "-" := by
    intro h
    have := congrArg String.data h
    simp [String.data_append] at this
  have c_swc : strStartsWith ("-cross=" ++ cross) "-cross=" = true :=
    strStartsWith_append_self "-cross=" cross
  have c_drop : strDropLen ("-cross=" ++ cross) 7 = cross := by
    have h7 : ("-cross=" : String).data.length = 7 := rfl
    rw [← h7]
    exact strDropLen_append "-cross=" cross
  have f_ne2 : ("-flavor=" ++ flavor) ≠ "--" := by
    intro h
    have := congrArg String.data h
    simp [String.data_append] at this
  have f_sw : strStartsWith ("-flavor=" ++ flavor) "-" = true := by
    simp [strStartsWith, String.data_append, List.isPrefixOf]
  have f_ne1 : ("-flavor=" ++ flavor) ≠ "-" := by
    intro h
    have := congrArg String.data h
    simp [String.data_append] at this
  have f_nc1 : strStartsWith ("-flavor=" ++ flavor) "-cross=" = false := by
    simp [strStartsWith, String.data_append, List.isPrefixOf]
  have f_nc2 : strStartsWith ("-flavor=" ++ flavor) "--cross=" = false := by
    simp [strStartsWith, String.data_append, List.isPrefixOf]
  have f_swf : strStartsWith ("-flavor=" ++ flavor) "-flavor=" = true :=
    strStartsWith_append_self "-flavor=" flavor
  have f_drop : strDropLen ("-flavor=" ++ flavor) 8 = flavor := by
    have h8 : ("-flavor=" : String).data.length = 8 := rfl
    rw [← h8]
    exact strDropLen_append "-flavor=" flavor
  have hu2 : url ≠ "--" := by
    intro h
    subst h
    simp [strStartsWith, List.isPrefixOf] at hurl
  simp [parseFlagTokens, c_ne2, c_sw, c_ne1, c_swc, c_drop,
    f_ne2, f_sw, f_ne1, f_nc1, f_nc2, f_swf, f_drop, hu2, hurl]

/-- C7 (counterexample): an in-container invocation with `-flavor=weird` —
neither `vanilla` nor `raspberrypi` — is not rejected: the driver proceeds
through its whole pipeline and produces a plan. -/
theorem c7_counterexample :
    (indockerMain
        ["-cross=arm64", "-flavor=weird", "https://example.com/linux-6.6.tar.xz"]
        ["config.addendum.txt", "linux-6.6.tar.xz", "linux-6.6"]
        4 [] "CONFIG_SQUASHFS=y\n" [] []).toOption.isSome = true := by
  rfl

/-- C7 (amended): an in-container `-flavor` value that is neither `vanilla`
nor `raspberrypi` is accepted, not rejected: the driver runs to completion
with the vanilla source-directory naming, a configure/compile sequence
identical to the vanilla one, and — on arm64 — no device-tree extraction at
all. -/
theorem c7_amended (cross flavor url : String) (ctxFiles : List String)
    (numCPU : Nat) (baseEnv : List String) (addendum : String)
    (broadcomDtbs overlayDtbos : List String)
    (hfl1 : flavor ≠ "vanilla") (hfl2 : flavor ≠ "raspberrypi")
    (hurl : strStartsWith url "-" = false) (hne : url ≠ "") :
    indockerMain (["-cross=" ++ cross, "-flavor=" ++ flavor, url]) ctxFiles
        numCPU baseEnv addendum broadcomDtbs overlayDtbos
      = Except.ok
          { downloadURL := url,
            untarCmd := ⟨"tar", ["xf", basename url]⟩,
            srcdir := trimSuffixStr (basename url) ".tar.xz",
            patchSeq := applyPatches (trimSuffixStr (basename url) ".tar.xz") ctxFiles,
            compile := compileSteps cross flavor numCPU baseEnv addendum,
            extract := if cross = "arm64"
              then [("/tmp/buildresult/vmlinuz", "arch/arm64/boot/Image")]
              else [("/tmp/buildresult/vmlinuz", "arch/x86/boot/bzImage")] } ∧
    compileSteps cross flavor numCPU baseEnv addendum
      = compileSteps cross "vanilla" numCPU baseEnv addendum := by
  constructor
  · unfold indockerMain indockerFlags
    rw [parseFlagTokens_crossFlavor "" "vanilla" cross flavor url hurl]
    simp only [List.headD_cons, if_neg hne]
    have hsrc : srcdirFor flavor (basename url) = trimSuffixStr (basename url) ".tar.xz" := by
      simp [srcdirFor, hfl2]
    have hext : extractOps cross flavor broadcomDtbs overlayDtbos
        = if cross = "arm64"
            then [("/tmp/buildresult/vmlinuz", "arch/arm64/boot/Image")]
            else [("/tmp/buildresult/vmlinuz", "arch/x86/boot/bzImage")] := by
      by_cases h : cross = "arm64" <;> simp [extractOps, hfl1, hfl2, h]
    rw [hsrc, hext]
  · simp [compileSteps, defconfigCmd, hfl2]

/-- C7 witness: the amended theorem evaluated at a concrete unknown flavor. -/
theorem c7_amended_witness :
    ("weird" : String) ≠ "vanilla" ∧ ("weird" : String) ≠ "raspberrypi" ∧
    strStartsWith "https://example.com/linux-6.6.tar.xz" "-" = false ∧
    ("https://example.com/linux-6.6.tar.xz" : String) ≠ "" ∧
    (indockerMain
        (["-cross=" ++ "arm64", "-flavor=" ++ "weird",
          "https://example.com/linux-6.6.tar.xz"])
        ["config.addendum.txt", "linux-6.6.tar.xz", "linux-6.6"]
        4 [] "CONFIG_SQUASHFS=y\n" [] []
      = Except.ok
          { downloadURL := "https://example.com/linux-6.6.tar.xz",
            untarCmd := ⟨"tar", ["xf", basename "https://example.com/linux-6.6.tar.xz"]⟩,
            srcdir := trimSuffixStr (basename "https://example.com/linux-6.6.tar.xz") ".tar.xz",
            patchSeq := applyPatches
              (trimSuffixStr (basename "https://example.com/linux-6.6.tar.xz") ".tar.xz")
              ["config.addendum.txt", "linux-6.6.tar.xz", "linux-6.6"],
            compile := compileSteps "arm64" "weird" 4 [] "CONFIG_SQUASHFS=y\n",
            extract := if ("arm64" : String) = "arm64"
              then [("/tmp/buildresult/vmlinuz", "arch/arm64/boot/Image")]
              else [("/tmp/buildresult/vmlinuz", "arch/x86/boot/bzImage")] } ∧
    compileSteps "arm64" "weird" 4 [] "CONFIG_SQUASHFS=y\n"
      = compileSteps "arm64" "vanilla" 4 [] "CONFIG_SQUASHFS=y\n") :=
  ⟨by decide, by decide, by decide, by decide,
    c7_amended "arm64" "weird" "https://example.com/linux-6.6.tar.xz"
      ["config.addendum.txt", "linux-6.6.tar.xz", "linux-6.6"]
      4 [] "CONFIG_SQUASHFS=y\n" [] []
      (by decide) (by decide) (by decide) (by decide)⟩


/-! ## Host-side post-run reconciliation tail (`rebuildkernel.go` lines
246-296), including the device-tree replacement -/

/-- The inputs to the host's artifact reconciliation: the produced and
pre-existing kernel images, the staged output tree, and the `.dtb` file
lists of the staging directory and of its parent. -/
structure HostReconcileInput where
  producedVmlinuz : FileState
  siblingVmlinuz : FileState
  stagedTree : List TreeEntry
  stagingDtbs : List String
  parentDtbs : List String
deriving DecidableEq, Repr

/-- The host state after a successful reconciliation. -/
structure HostReconcileResult where
  siblingVmlinuz : FileState
  installedModules : List TreeEntry
  parentDtbs : List String
deriving DecidableEq, Repr

/-- `sh -c "rm ../*.dtb"` (`rebuildkernel.go` line 281): when no `../*.dtb`
exists, POSIX sh passes the unexpanded pattern literally to `rm`, which
fails on the nonexistent path, so the step errors exactly when the parent
holds no `.dtb` file; otherwise all of them are removed. -/
def removeParentDtbs (parentDtbs : List String) : Except String (List String) :=
  if parentDtbs.isEmpty then
    Except.error "rm: cannot remove ../*.dtb: No such file or directory"
  else Except.ok []

/-- `sh -c "cp *.dtb .."` (`rebuildkernel.go` line 288): when the staging
directory holds no `.dtb`, `cp` fails on the unexpanded literal pattern;
otherwise the staged `.dtb` files become the parent's. -/
def copyStagingDtbs (stagingDtbs : List String) : Except String (List String) :=
  if stagingDtbs.isEmpty then
    Except.error "cp: cannot stat *.dtb: No such file or directory"
  else Except.ok stagingDtbs

/-- The reconciliation tail of `rebuildKernel` (lines 246-296): kernel-image
copy, symlink pruning plus modules-tree replacement, then — with no
conditional whatsoever on the `-cross` value, which the function does not
consult here — the device-tree replacement, whose two shell steps are the
only fallible ones in this model (the `rm -rf`/`cp -r` of the modules tree
is assumed to succeed, matching a container run that produced
`lib/modules`). -/
def hostReconcile (_cross : String) (inp : HostReconcileInput) :
    Except String HostReconcileResult :=
  let vmlinuz := copyFile inp.producedVmlinuz (some inp.siblingVmlinuz)
  let installed := installedModulesTree inp.stagedTree
  match removeParentDtbs inp.parentDtbs with
  | Except.error e => Except.error e
  | Except.ok _ =>
    match copyStagingDtbs inp.stagingDtbs with
    | Except.error e => Except.error e
    | Except.ok dtbs => Except.ok ⟨vmlinuz, installed, dtbs⟩

/-- C10 (confirmed): the device-tree replacement runs for every build — the
reconciliation is independent of the `-cross` value — and whenever the
staging directory holds no `.dtb` file or the parent directory holds no
pre-existing `.dtb` file, the otherwise-successful pipeline ends in an
error. -/
theorem c10_unconditional_dtb_replacement (cross : String) (inp : HostReconcileInput)
    (h : inp.stagingDtbs = [] ∨ inp.parentDtbs = []) :
    hostReconcile cross inp = hostReconcile "" inp ∧
    (hostReconcile cross inp).toOption.isSome = false := by
  refine ⟨rfl, ?_⟩
  rcases h with h | h
  · unfold hostReconcile removeParentDtbs copyStagingDtbs
    rcases hp : inp.parentDtbs with _ | ⟨a, rest⟩ <;> simp [h, hp, Except.toOption]
  · unfold hostReconcile removeParentDtbs
    simp [h, Except.toOption]

/-- C10 witness: the theorem evaluated at a concrete amd64 (`-cross=""` is
represented by the empty string; here `cross = "arm64"` exercises the
cross-independence conjunct too) run whose staging directory produced no
`.dtb` file. -/
theorem c10_unconditional_dtb_replacement_witness :
    ((HostReconcileInput.mk ⟨"kern", 0o755⟩ ⟨"old", 0o755⟩
        [TreeEntry.mk ["lib", "modules", "6.6.0"] false] [] ["../old.dtb"]).stagingDtbs = []
      ∨ (HostReconcileInput.mk ⟨"kern", 0o755⟩ ⟨"old", 0o755⟩
        [TreeEntry.mk ["lib", "modules", "6.6.0"] false] [] ["../old.dtb"]).parentDtbs = []) ∧
    (hostReconcile "arm64"
        (HostReconcileInput.mk ⟨"kern", 0o755⟩ ⟨"old", 0o755⟩
          [TreeEntry.mk ["lib", "modules", "6.6.0"] false] [] ["../old.dtb"])
      = hostReconcile ""
        (HostReconcileInput.mk ⟨"kern", 0o755⟩ ⟨"old", 0o755⟩
          [TreeEntry.mk ["lib", "modules", "6.6.0"] false] [] ["../old.dtb"]) ∧
    (hostReconcile "arm64"
        (HostReconcileInput.mk ⟨"kern", 0o755⟩ ⟨"old", 0o755⟩
          [TreeEntry.mk ["lib", "modules", "6.6.0"] false] [] ["../old.dtb"])).toOption.isSome
      = false) :=
  ⟨Or.inl rfl,
    c10_unconditional_dtb_replacement "arm64"
      (HostReconcileInput.mk ⟨"kern", 0o755⟩ ⟨"old", 0o755⟩
        [TreeEntry.mk ["lib", "modules", "6.6.0"] false] [] ["../old.dtb"])
      (Or.inl rfl)⟩

end GokrRebuildKernel
